import Mathlib

/-!
# urlshandler: limiter, HTTP client and request handler

A shallow embedding of `limiter.go`, `http.go` and `handler.go`.

* Go's `int32` and `int64` are modelled by `Int`; every arithmetic operation the
  source performs on them is followed by an explicit two's-complement wrap
  (`wrapInt32`, `wrapInt64`), as `atomic.AddInt32` and `+=` do in Go.
* `nil` errors are `none : Option error`.
* Shared state (the limiter counter, the response writer, a response body) is
  passed explicitly; every function returns the new state next to its result.
-/

namespace urlshandler

/-! ## limiter.go -/

/-- Go `error` values created or inspected by the package; `nil` is `none`. -/
inductive error where
  | throttleError (limit : Int)
  | limiterError
  | EOF
  | other (msg : String)
deriving DecidableEq, Repr

/-- Two's-complement wrap of an integer into the range of `int32`. -/
def wrapInt32 (x : Int) : Int := (x + 2147483648) % 4294967296 - 2147483648

/-- Two's-complement wrap of an integer into the range of `int64`. -/
def wrapInt64 (x : Int) : Int :=
  (x + 9223372036854775808) % 18446744073709551616 - 9223372036854775808

/-- The struct `limiter`: both fields are `int32`. -/
structure limiter where
  max : Int
  counter : Int
deriving DecidableEq, Repr

/-- Source: `newLimiter` returns `limiter{max: max}`; the counter starts at zero. -/
def newLimiter (max : Int) : limiter := { max := max, counter := 0 }

/-- The `Error()` methods of `throttleError` and `limiterError` (and the text of the others). -/
def error.Error : error → String
  | .throttleError limit => "Simultaneous requests limited to " ++ toString limit
  | .limiterError => "Inconsistent limiter state"
  | .EOF => "EOF"
  | .other msg => msg

/-- Source: `take` is `atomic.AddInt32(&l.counter, 1) > l.max`; the increment stays
also when the call is rejected. -/
def limiter.take (l : limiter) : limiter × Option error :=
  let c := wrapInt32 (l.counter + 1)
  ({ l with counter := c }, if c > l.max then some (error.throttleError l.max) else none)

/-- Source: `release` is `atomic.AddInt32(&l.counter, -1) < 0`; the decrement stays
also when the fault is reported. -/
def limiter.release (l : limiter) : limiter × Option error :=
  let c := wrapInt32 (l.counter - 1)
  ({ l with counter := c }, if c < 0 then some error.limiterError else none)

/-- Run `n` calls of `take` one after the other with no `release` in between: the final
limiter and the results of the calls, first call first. -/
def takes : Nat → limiter → limiter × List (Option error)
  | 0, l => (l, [])
  | n + 1, l =>
    let r := l.take
    let rs := takes n r.1
    (rs.1, r.2 :: rs.2)

/-! ### Interleavings of `processRequest` executions on one limiter

Each execution of `processRequest` performs the atomic step `take` once and, whatever
`take` returned, the atomic step `release` once later (the deferred call). Executions
are named by natural numbers; an interleaving is a list of atomic steps. -/

/-- One atomic step on the shared limiter, made by execution `i`. -/
inductive Step where
  | take (i : Nat)
  | release (i : Nat)
deriving DecidableEq, Repr

/-- The shared limiter together with the executions that are between their `take` and
their `release`: `granted` got `nil` from `take`, `refused` got a `throttleError`.
`finished` have released; `faults` counts the releases that returned `limiterError`. -/
structure Sys where
  l : limiter
  granted : List Nat
  refused : List Nat
  finished : List Nat
  faults : Nat
deriving DecidableEq, Repr

/-- A limiter with maximum `m`, counter 0, and no execution started. -/
def Sys.init (m : Int) : Sys :=
  { l := newLimiter m, granted := [], refused := [], finished := [], faults := 0 }

/-- Number of executions that have taken and not yet released. -/
def Sys.outstanding (s : Sys) : Nat := s.granted.length + s.refused.length

/-- One atomic step. A step is not enabled (`none`) when the execution would take a second
time, or release without an earlier unreleased take of its own. -/
def Sys.step (s : Sys) : Step → Option Sys
  | .take i =>
    if i ∈ s.granted ∨ i ∈ s.refused ∨ i ∈ s.finished then none
    else
      let r := s.l.take
      match r.2 with
      | none => some { s with l := r.1, granted := i :: s.granted }
      | some _ => some { s with l := r.1, refused := i :: s.refused }
  | .release i =>
    if i ∈ s.granted then
      let r := s.l.release
      some { s with l := r.1, granted := s.granted.erase i, finished := i :: s.finished,
                    faults := s.faults + (if r.2 = some error.limiterError then 1 else 0) }
    else if i ∈ s.refused then
      let r := s.l.release
      some { s with l := r.1, refused := s.refused.erase i, finished := i :: s.finished,
                    faults := s.faults + (if r.2 = some error.limiterError then 1 else 0) }
    else none

/-- Run an interleaving from a state; `none` when some step is not enabled. -/
def Sys.run (s : Sys) : List Step → Option Sys
  | [] => some s
  | e :: es => (s.step e).bind (fun s1 => s1.run es)

/-- What holds in every state of an interleaving that never has `2^31` or more executions
between their take and their release. -/
def Sys.Good (m : Int) (s : Sys) : Prop :=
  s.l.max = m ∧ s.l.counter = (s.outstanding : Int) ∧ s.faults = 0 ∧
    (0 ≤ m → (s.granted.length : Int) ≤ m)

/-- The state after executions 0 and 1 took on a limiter with maximum 1: the first was
granted, the second refused. -/
def twoTaken : Sys :=
  { l := { max := 1, counter := 2 }, granted := [0], refused := [1], finished := [],
    faults := 0 }

/-- The state after executions 0 and 1 took on a limiter with maximum 1 and both
released. -/
def bothReleased : Sys :=
  { l := { max := 1, counter := 0 }, granted := [], refused := [], finished := [0, 1],
    faults := 0 }

/-! ## http.go -/

/-- A response body (`io.ReadCloser`) as `readBodySize` can observe it: the byte counts of
the successive `Read` calls that return a `nil` error (`chunks`), then the first `Read`
that returns a non-nil error, with the bytes delivered along with it (`last`).
`reads` and `closes` count the `Read` and `Close` calls made on it so far. A reader that
never reports an error is not represented: on it the loop of `readBodySize` does not end. -/
structure ReadCloser where
  chunks : List Nat
  last : Nat × error
  reads : Nat
  closes : Nat
deriving DecidableEq, Repr

/-- The `for` loop of `readBodySize`. Each equation is one iteration: `resp.Read(buf)`,
then `length += int64(n)`, then the test of `err`. Arguments: the reads still to come,
`length`, and the number of `Read` calls made so far. -/
def readLoop (last : Nat × error) : List Nat → Int → Nat → (Int × Option error) × Nat
  | [], length, reads =>
    let length := wrapInt64 (length + last.1)
    if last.2 = error.EOF then ((length, none), reads + 1)
    else ((0, some last.2), reads + 1)
  | n :: rest, length, reads => readLoop last rest (wrapInt64 (length + n)) (reads + 1)

/-- Source: `readBodySize`. `defer resp.Close()` runs once, on either exit. -/
def readBodySize (resp : ReadCloser) : (Int × Option error) × ReadCloser :=
  let r := readLoop resp.last resp.chunks 0 resp.reads
  (r.1, { resp with chunks := [], reads := r.2, closes := resp.closes + 1 })

/-- The fields of `http.Response` that the package reads. -/
structure Response where
  StatusCode : Int
  ContentLength : Int
  Body : ReadCloser
deriving DecidableEq, Repr

/-- The fields of `http.Request` that the package sets. -/
structure Request where
  URL : String
  Method : String
deriving DecidableEq, Repr

/-- Source: `isRecoverableError`. -/
def isRecoverableError (response : Response) : Bool :=
  if response.StatusCode >= 500 then true else false

/-- The struct `httpClient`. `Do` stands for the embedded `*http.Client`: the result of
`c.Do(req)` for the request `req` when `n` requests were issued before it in this fetch
(a transport error, deadline expiry included, is `Except.error`). -/
structure httpClient where
  maxRecoverAttempts : Int
  Do : Request → Nat → Except error Response

/-- Source: `newClient` returns `&httpClient{Client: prepareClient()}`: the argument
`maxAttempts` is not stored, so `maxRecoverAttempts` keeps its zero value. The parameter
`transport` stands for the `*http.Client` that `prepareClient()` builds. -/
def newClient (_maxAttempts : Int) (transport : Request → Nat → Except error Response) :
    httpClient :=
  { maxRecoverAttempts := 0, Do := transport }

/-- What one fetch did: the returned `(size, err)`, the requests issued through `c.Do`
(oldest first), the number of `retryWait(3, 1)` calls, and the body of the last response
in its final state. -/
structure Fetch where
  size : Int
  err : Option error
  requests : List Request
  waits : Nat
  body : Option ReadCloser
deriving DecidableEq, Repr

/-- Source: `makeRecovarableHttpRequest`. `issued` and `waits` carry the log of the
attempts made so far. `attempts + 1` cannot overflow: it is reached only when
`attempts < c.maxRecoverAttempts`. -/
def makeRecovarableHttpRequest (c : httpClient) (req : Request) (attempts : Int)
    (issued : List Request) (waits : Nat) : Fetch :=
  match c.Do req issued.length with
  | .error e =>
    { size := 0, err := some e, requests := issued ++ [req], waits := waits, body := none }
  | .ok resp =>
    if isRecoverableError resp then
      if attempts ≥ c.maxRecoverAttempts then
        { size := 0, err := none, requests := issued ++ [req], waits := waits,
          body := some resp.Body }
      else
        makeRecovarableHttpRequest c req (attempts + 1) (issued ++ [req]) (waits + 1)
    else if resp.ContentLength ≠ -1 then
      { size := resp.ContentLength, err := none, requests := issued ++ [req], waits := waits,
        body := some resp.Body }
    else
      let r := readBodySize resp.Body
      { size := r.1.1, err := r.1.2, requests := issued ++ [req], waits := waits,
        body := some r.2 }
termination_by (c.maxRecoverAttempts - attempts).toNat
decreasing_by omega

/-- Source: `makeHttpRequest` starts with `attempts = 0`. -/
def httpClient.makeHttpRequest (c : httpClient) (req : Request) : Fetch :=
  makeRecovarableHttpRequest c req 0 [] 0

/-- The struct `requestURL`: a parsed URL or a parse error. -/
structure requestURL where
  url : String
  err : Option error
deriving DecidableEq, Repr

/-! ## handler.go -/

/-- The interface `client`: what `makeHttpRequest(ctx, req)` returns to goroutine `i`
for the request `req` (the context is part of what decides the answer). -/
structure client where
  makeHttpRequest : Nat → Request → Int × Option error

/-- The struct `handler`; `timeout` is a `time.Duration`, in nanoseconds. -/
structure handler where
  limiter : limiter
  timeout : Int
  client : client

/-- Source: `New`; `int32(maxSimultaneousRequests)` truncates to 32 bits. -/
def New (maxSimultaneousRequests : Int) (timeout : Int) (c : client) : handler :=
  { limiter := newLimiter (wrapInt32 maxSimultaneousRequests), timeout := timeout, client := c }

/-- An `http.ResponseWriter` as its caller sees it (net/http and httptest): `header` is
the map returned by `w.Header()`; the first `WriteHeader` fixes the status and the
headers of the response (`status`, `sent`); `body` lists the strings written, oldest
first. -/
structure ResponseWriter where
  header : List (String × String)
  status : Option Int
  sent : List (String × String)
  body : List String
deriving DecidableEq, Repr

/-- A writer on which nothing was set or written yet. -/
def ResponseWriter.new : ResponseWriter := { header := [], status := none, sent := [], body := [] }

/-- The call `w.Header().Set(key, value)`: changes the map only. -/
def ResponseWriter.Set (w : ResponseWriter) (key value : String) : ResponseWriter :=
  { w with header := (key, value) :: w.header.filter (fun kv => kv.1 ≠ key) }

/-- The call `w.WriteHeader(code)`: the first call fixes status and headers; a later
call changes nothing. -/
def ResponseWriter.WriteHeader (w : ResponseWriter) (code : Int) : ResponseWriter :=
  match w.status with
  | none => { w with status := some code, sent := w.header }
  | some _ => w

/-- The call `io.WriteString(w, s)`: an implicit `WriteHeader(200)` when no status was
written, then the string is appended to the body. -/
def ResponseWriter.WriteString (w : ResponseWriter) (s : String) : ResponseWriter :=
  let w1 := w.WriteHeader 200
  { w1 with body := w1.body ++ [s] }

/-- The value of a header in the response as sent. -/
def ResponseWriter.sentHeader (w : ResponseWriter) (key : String) : Option String :=
  (w.sent.find? (fun kv => kv.1 = key)).map (fun kv => kv.2)

/-- The call `strconv.FormatInt(size, 10)` (and `strconv.Itoa`): decimal digits, with a
leading minus sign for a negative number. -/
def FormatInt (size : Int) : String := toString size

/-- The expression `int(h.timeout.Seconds())`: the whole seconds in a duration given in
nanoseconds, rounded toward zero (the rounding of the `float64` that `Seconds()` returns is
not modelled). -/
def wholeSeconds (d : Int) : Int := Int.tdiv d 1000000000

/-- The goroutine started for target `u` (the `i`-th of the batch): the value it sends on
`results`, and whether it called the client. -/
def fetchOne (h : handler) (i : Nat) (u : requestURL) : Int × Bool :=
  if u.err ≠ none then (0, false)
  else
    let r := h.client.makeHttpRequest i { URL := u.url, Method := "GET" }
    if r.2 ≠ none then (0, true) else (r.1, true)

/-- The order in which the values of the pending goroutines arrive on the unbuffered
channel `results`. With `n + 1` goroutines still to send, `pick n` chooses which of them
sends next; the loop ends when none is left (`wg.Wait()` returns and the channel is
closed). -/
def drain {α : Type} (pick : Nat → Nat) : Nat → List α → List α
  | 0, _ => []
  | n + 1, pending =>
    match pending[pick n % pending.length]? with
    | none => []
    | some x => x :: drain pick n (pending.eraseIdx (pick n % pending.length))

/-- What one execution of `processRequest` leaves behind: the handler (its limiter), the
response writer, and the indices of the goroutines that called the client. -/
structure Served where
  h : handler
  w : ResponseWriter
  clientCalls : List Nat

/-- Source: `processRequest`. `targets` is `parseRequestBody(r.Body)`; `pick` is the
completion order of the goroutines (see `drain`). The deferred `release` runs last on
both paths. -/
def processRequest (h : handler) (w : ResponseWriter) (targets : List requestURL)
    (pick : Nat → Nat) : Served :=
  let w := w.Set "Content-Type" "text/plain; charset=utf-8"
  let t := h.limiter.take
  match t.2 with
  | some err =>
    let text := err.Error
    let w := w.WriteHeader 429
    let w := w.Set "Retry-After" (FormatInt (wholeSeconds h.timeout))
    let w := w.Set "Content-Length" (FormatInt text.utf8ByteSize)
    let w := w.WriteString text
    { h := { h with limiter := t.1.release.1 }, w := w, clientCalls := [] }
  | none =>
    let sent := targets.enum.map (fun iu => (iu.1, fetchOne h iu.1 iu.2))
    let results := drain pick sent.length sent
    let w := w.Set "Transfer-Encoding" "chunked"
    let w := w.Set "X-Content-Type-Options" "nosniff"
    let w := w.WriteHeader 200
    let w := results.foldl (fun w r => w.WriteString (FormatInt r.2.1 ++ "\n")) w
    { h := { h with limiter := t.1.release.1 }, w := w,
      clientCalls := (sent.filter (fun r => r.2.2)).map (fun r => r.1) }

/-- The body read in `TestReadBodySize`: 200000 bytes through the 4096-byte buffer, that is
48 full chunks, then 3392 bytes, then `(0, io.EOF)`. -/
def testBody : ReadCloser :=
  { chunks := List.replicate 48 4096 ++ [3392], last := (0, error.EOF), reads := 0, closes := 0 }

/-- A body that fills the 4096-byte buffer `2^51` times and then reports `(0, io.EOF)`:
`2^63` bytes in all. -/
def hugeBody : ReadCloser :=
  { chunks := List.replicate 2251799813685248 4096, last := (0, error.EOF), reads := 0,
    closes := 0 }

/-- A server that answers every request with status 503 and an empty body of known
length. -/
def always503 : Request → Nat → Except error Response :=
  fun _ _ => Except.ok
    { StatusCode := 503, ContentLength := 0,
      Body := { chunks := [], last := (0, error.EOF), reads := 0, closes := 0 } }

/-- A server that answers every request with status 404 and a body of known length 9. -/
def always404 : Request → Nat → Except error Response :=
  fun _ _ => Except.ok
    { StatusCode := 404, ContentLength := 9,
      Body := { chunks := [], last := (9, error.EOF), reads := 0, closes := 0 } }

/-- The client of the tests (`testClient`) when the deadline does not expire first: every
call returns `(0, nil)`. -/
def testClient : client := { makeHttpRequest := fun _ _ => (0, none) }

/-- A client that returns size 7 for goroutine 0, an error for goroutine 1 and size 12 for
the others. -/
def sampleClient : client :=
  { makeHttpRequest := fun i _ =>
      if i = 0 then (7, none) else if i = 1 then (3, some (error.other "timeout")) else (12, none) }

/-- The targets of the request body of the tests (`reqBody`): three well-formed URLs. -/
def reqTargets : List requestURL :=
  [{ url := "http://1", err := none }, { url := "http://2", err := none },
   { url := "http://3", err := none }]

/-- A batch whose second line failed to parse. -/
def mixedTargets : List requestURL :=
  [{ url := "http://1", err := none }, { url := "", err := some (error.other "invalid URI") },
   { url := "http://3", err := none }]

/-- The handler `New(1, 5 * time.Second, client)` of the tests while one batch is admitted
and not yet released: the counter of its limiter is 1. -/
def busyHandler : handler :=
  { limiter := { max := 1, counter := 1 }, timeout := 5000000000, client := testClient }

/-- The handler `New(1, 5 * time.Second, sampleClient)`, no batch admitted. -/
def sampleHandler : handler := New 1 5000000000 sampleClient

/-- The outcome of a target as the specification defines it: 0 if the target failed to
parse or the client returned an error, otherwise the size the client returned. -/
def outcome (h : handler) (i : Nat) (u : requestURL) : Int :=
  if u.err.isSome then 0
  else if (h.client.makeHttpRequest i { URL := u.url, Method := "GET" }).2.isSome then 0
  else (h.client.makeHttpRequest i { URL := u.url, Method := "GET" }).1

/-! ## Properties of the limiter -/

theorem wrapInt32_of_range (x : Int) (h1 : -2147483648 ≤ x) (h2 : x ≤ 2147483647) :
    wrapInt32 x = x := by
  unfold wrapInt32; omega

theorem wrapInt64_of_range (x : Int) (h1 : -9223372036854775808 ≤ x)
    (h2 : x ≤ 9223372036854775807) : wrapInt64 x = x := by
  unfold wrapInt64; omega

/-- While the counter stays at or below the maximum (and inside `int32`), `n` takes in a
row all return `nil` and add `n` to the counter. -/
theorem takes_within (n : Nat) (l : limiter) (h1 : -2147483648 ≤ l.counter)
    (h2 : l.counter + n ≤ l.max) (h3 : l.max ≤ 2147483647) :
    takes n l = ({ l with counter := l.counter + n }, List.replicate n none) := by
  induction n generalizing l with
  | zero => simp [takes]
  | succ k ih =>
    have hw : wrapInt32 (l.counter + 1) = l.counter + 1 :=
      wrapInt32_of_range _ (by omega) (by push_cast at h2; omega)
    have hle : ¬ (l.counter + 1 > l.max) := by push_cast at h2; omega
    have := ih { l with counter := l.counter + 1 } (by simp; omega)
      (by simp; push_cast at h2; omega) (by simpa using h3)
    simp only [takes, limiter.take, hw, if_neg hle, this, List.replicate_succ]
    simp
    omega

theorem Sys.good_init (m : Int) : (Sys.init m).Good m := by
  simp [Sys.Good, Sys.init, newLimiter, Sys.outstanding]

theorem Sys.good_step (m : Int) (s s1 : Sys) (e : Step) (hg : s.Good m)
    (hs : s.step e = some s1) (hb : s1.outstanding < 2147483648) : s1.Good m := by
  obtain ⟨hmax, hcnt, hf, hgr⟩ := hg
  cases e with
  | take i =>
    simp only [Sys.step] at hs
    split at hs
    · cases hs
    · have hw : wrapInt32 (s.l.counter + 1) = s.l.counter + 1 := by
        apply wrapInt32_of_range
        · omega
        · split at hs <;> cases hs <;> simp [Sys.outstanding] at hb <;>
            simp [Sys.outstanding] at hcnt <;> omega
      by_cases hc : s.l.counter + 1 > s.l.max
      · simp only [limiter.take, hw, if_pos hc] at hs
        cases hs
        refine ⟨hmax, ?_, hf, hgr⟩
        simp [Sys.outstanding] at hcnt ⊢
        omega
      · simp only [limiter.take, hw, if_neg hc] at hs
        cases hs
        refine ⟨hmax, ?_, hf, ?_⟩
        · simp [Sys.outstanding] at hcnt ⊢
          omega
        · intro _
          simp [Sys.outstanding] at hcnt ⊢
          omega
  | release i =>
    simp only [Sys.step] at hs
    split at hs
    · rename_i hi
      have hpos : 0 < s.granted.length := List.length_pos_of_mem hi
      have hlen : (s.granted.erase i).length = s.granted.length - 1 :=
        List.length_erase_of_mem hi
      cases hs
      simp only [Sys.outstanding] at hb hcnt
      rw [hlen] at hb
      have hw : wrapInt32 (s.l.counter - 1) = s.l.counter - 1 :=
        wrapInt32_of_range _ (by omega) (by omega)
      have hnn : ¬ (s.l.counter - 1 < 0) := by omega
      refine ⟨hmax, ?_, ?_, ?_⟩
      · simp only [limiter.release, hw, Sys.outstanding, hlen]
        omega
      · simp [limiter.release, hw, hnn, hf]
      · intro h0
        have := hgr h0
        simp only [hlen]
        omega
    · split at hs
      · rename_i hi
        have hpos : 0 < s.refused.length := List.length_pos_of_mem hi
        have hlen : (s.refused.erase i).length = s.refused.length - 1 :=
          List.length_erase_of_mem hi
        cases hs
        simp only [Sys.outstanding] at hb hcnt
        rw [hlen] at hb
        have hw : wrapInt32 (s.l.counter - 1) = s.l.counter - 1 :=
          wrapInt32_of_range _ (by omega) (by omega)
        have hnn : ¬ (s.l.counter - 1 < 0) := by omega
        refine ⟨hmax, ?_, ?_, hgr⟩
        · simp only [limiter.release, hw, Sys.outstanding, hlen]
          omega
        · simp [limiter.release, hw, hnn, hf]
      · cases hs

theorem Sys.good_run (m : Int) (tr : List Step) (s s2 : Sys) (hg : s.Good m)
    (hb : ∀ k s1, s.run (tr.take k) = some s1 → s1.outstanding < 2147483648)
    (hr : s.run tr = some s2) : s2.Good m := by
  induction tr generalizing s with
  | nil =>
    simp only [Sys.run, Option.some.injEq] at hr
    exact hr ▸ hg
  | cons e es ih =>
    simp only [Sys.run] at hr
    cases hstep : s.step e with
    | none => simp [hstep] at hr
    | some s1 =>
      rw [hstep] at hr
      simp only [Option.some_bind] at hr
      have hb1 : s1.outstanding < 2147483648 :=
        hb 1 s1 (by simp [Sys.run, hstep])
      refine ih s1 (Sys.good_step m s s1 e hg hstep hb1) ?_ hr
      intro k s3 hk
      exact hb (k + 1) s3 (by simpa [Sys.run, hstep] using hk)

theorem Sys.run_append (s : Sys) (a b : List Step) :
    s.run (a ++ b) = (s.run a).bind (fun s1 => s1.run b) := by
  induction a generalizing s with
  | nil => simp [Sys.run]
  | cons e es ih =>
    simp only [List.cons_append, Sys.run]
    cases s.step e with
    | none => simp
    | some s1 => simp [ih]

/-- With maximum 0, executions `0, …, n-1` take one after the other and none releases: as
long as the counter has not wrapped, all of them are refused. -/
theorem Sys.run_takes_zero (n : Nat) (hn : n ≤ 2147483647) :
    (Sys.init 0).run ((List.range n).map Step.take) =
      some { l := { max := 0, counter := n }, granted := [],
             refused := (List.range n).reverse, finished := [], faults := 0 } := by
  induction n with
  | zero => simp [Sys.run, Sys.init, newLimiter]
  | succ k ih =>
    rw [List.range_succ, List.map_append, Sys.run_append, ih (by omega)]
    have hw : wrapInt32 ((k : Int) + 1) = (k : Int) + 1 :=
      wrapInt32_of_range _ (by omega) (by omega)
    have hc : ((k : Int) + 1 > 0) := by omega
    simp [Sys.run, Sys.step, limiter.take, hw, hc]

/-- One more take after `n = 2^31 - 1` refused ones: the counter wraps to `-2^31` and the
take is granted. -/
theorem Sys.run_takes_zero_next (n : Nat) (hn : n = 2147483647) :
    (Sys.init 0).run ((List.range (n + 1)).map Step.take) =
      some { l := { max := 0, counter := -2147483648 }, granted := [n],
             refused := (List.range n).reverse, finished := [], faults := 0 } := by
  rw [List.range_succ, List.map_append, Sys.run_append, Sys.run_takes_zero n (by omega)]
  have hw : wrapInt32 ((n : Int) + 1) = -2147483648 := by
    unfold wrapInt32; omega
  simp [Sys.run, Sys.step, limiter.take, hw]

/-- The state after `2^31` executions took with maximum 0 and none released: the last take
wrapped the counter to `-2^31` and was granted. -/
theorem Sys.run_takes_zero_wrapped :
    (Sys.init 0).run ((List.range 2147483648).map Step.take) =
      some { l := { max := 0, counter := -2147483648 }, granted := [2147483647],
             refused := (List.range 2147483647).reverse, finished := [], faults := 0 } :=
  Sys.run_takes_zero_next 2147483647 rfl

/-- The counter and the number of outstanding executions in a state reached with `n`
refused executions and one granted. -/
theorem Sys.counter_outstanding_of_run (n m : Nat) (c : Int) (tr : List Step)
    (h : (Sys.init 0).run tr =
      some (Sys.mk (limiter.mk 0 c) [n] (List.range n).reverse [] 0))
    (hm : m = n + 1) :
    ((Sys.init 0).run tr).map (fun s => (s.l.counter, s.outstanding)) = some (c, m) := by
  rw [h, hm]
  simp [Sys.outstanding]
  omega

/-- An interleaving leaves at most as many executions outstanding as it has steps. -/
theorem Sys.outstanding_run_le (tr : List Step) (s s2 : Sys) (hr : s.run tr = some s2) :
    s2.outstanding ≤ s.outstanding + tr.length := by
  induction tr generalizing s with
  | nil =>
    simp only [Sys.run, Option.some.injEq] at hr
    simp [← hr]
  | cons e es ih =>
    simp only [Sys.run] at hr
    cases hstep : s.step e with
    | none => simp [hstep] at hr
    | some s1 =>
      rw [hstep] at hr
      simp only [Option.some_bind] at hr
      have h1 := ih s1 hr
      have h2 : s1.outstanding ≤ s.outstanding + 1 := by
        cases e with
        | take i =>
          simp only [Sys.step] at hstep
          split at hstep
          · cases hstep
          · split at hstep <;> cases hstep <;> simp [Sys.outstanding] <;> omega
        | release i =>
          simp only [Sys.step] at hstep
          split at hstep
          · cases hstep
            simp only [Sys.outstanding]
            have := List.length_erase_le i s.granted
            omega
          · split at hstep
            · cases hstep
              simp only [Sys.outstanding]
              have := List.length_erase_le i s.refused
              omega
            · cases hstep
      simp only [List.length_cons]
      omega

/-- An interleaving of fewer than `2^31` steps never has `2^31` executions outstanding. -/
theorem Sys.outstanding_lt_of_short (m : Int) (tr : List Step)
    (hlen : tr.length < 2147483648) (k : Nat) (s1 : Sys)
    (h : (Sys.init m).run (tr.take k) = some s1) : s1.outstanding < 2147483648 := by
  have h1 := Sys.outstanding_run_le _ _ _ h
  have h2 : (tr.take k).length ≤ tr.length := by
    rw [List.length_take]; exact Nat.min_le_right k tr.length
  simp only [Sys.init, Sys.outstanding, List.length_nil] at h1
  simp only [Sys.outstanding]
  omega

/-! ### C3 -/

/-- C3 (as amended): for a limiter made by `newLimiter m` with `0 ≤ m < 2^31 - 1`, the first
`m` takes with no release in between all return `nil` and leave the counter at `m`, and
the next take returns a `throttleError` whose limit is `m`. -/
theorem take_until_max (m : Int) (h0 : 0 ≤ m) (h1 : m < 2147483647) :
    (takes m.toNat (newLimiter m)).2 = List.replicate m.toNat none ∧
    (takes m.toNat (newLimiter m)).1.counter = m ∧
    (takes m.toNat (newLimiter m)).1.take.2 = some (error.throttleError m) := by
  have hm : ((m.toNat : Nat) : Int) = m := Int.toNat_of_nonneg h0
  have ht := takes_within m.toNat (newLimiter m) (by simp [newLimiter])
    (by simp [newLimiter, hm]) (by simp [newLimiter]; omega)
  rw [ht]
  have hw : wrapInt32 (m + 1) = m + 1 := wrapInt32_of_range _ (by omega) (by omega)
  simp [newLimiter, hm, limiter.take, hw]

/-- C3, instance: the test `TestLimiterTake` (maximum 5). -/
theorem take_until_max_witness :
    (0 : Int) ≤ 5 ∧ (5 : Int) < 2147483647 ∧
    (takes (5 : Int).toNat (newLimiter 5)).2 = List.replicate (5 : Int).toNat none ∧
    (takes (5 : Int).toNat (newLimiter 5)).1.counter = 5 ∧
    (takes (5 : Int).toNat (newLimiter 5)).1.take.2 = some (error.throttleError 5) :=
  ⟨by decide, by decide, take_until_max 5 (by decide) (by decide)⟩

/-- C3, counterexample: with the largest `int32` as maximum, `2^31 - 1` takes all return
`nil` and leave the counter at the maximum; the next take wraps the counter to `-2^31` and
returns `nil`, not a `throttleError`. -/
theorem take_past_max_int32 :
    (takes 2147483647 (newLimiter 2147483647)).2 = List.replicate 2147483647 none ∧
    (takes 2147483647 (newLimiter 2147483647)).1.counter = 2147483647 ∧
    (takes 2147483647 (newLimiter 2147483647)).1.take.2 = none ∧
    (takes 2147483647 (newLimiter 2147483647)).1.take.1.counter = -2147483648 := by
  have ht := takes_within 2147483647 (newLimiter 2147483647) (by simp [newLimiter])
    (by simp [newLimiter]) (by simp [newLimiter])
  rw [ht]
  refine ⟨rfl, by simp [newLimiter], ?_, ?_⟩ <;>
    simp [newLimiter, limiter.take, wrapInt32]

/-! ### C2 -/

/-- C2 (as amended): for a limiter with maximum `m ≥ 0` starting at counter 0, in every
state reached by an interleaving of `processRequest` executions in which fewer than `2^31`
executions are between their take and their release at any time, the number of executions
whose take returned `nil` and that have not yet released is at most `m`. -/
theorem granted_le_max (m : Int) (hm : 0 ≤ m) (tr : List Step) (s : Sys)
    (hr : (Sys.init m).run tr = some s)
    (hb : ∀ k s1, (Sys.init m).run (tr.take k) = some s1 → s1.outstanding < 2147483648) :
    (s.granted.length : Int) ≤ m :=
  (Sys.good_run m tr (Sys.init m) s (Sys.good_init m) hb hr).2.2.2 hm

/-- C2, instance: maximum 1, two executions take; the first is granted, the second
refused. -/
theorem granted_le_max_witness :
    (Sys.init 1).run [Step.take 0, Step.take 1] = some twoTaken ∧
    (twoTaken.granted.length : Int) ≤ 1 :=
  have hr : (Sys.init 1).run [Step.take 0, Step.take 1] = some twoTaken := by
    simp [Sys.run, Sys.step, Sys.init, newLimiter, limiter.take, wrapInt32, twoTaken]
  ⟨hr, granted_le_max 1 (by decide) [Step.take 0, Step.take 1] twoTaken hr
    (Sys.outstanding_lt_of_short 1 _ (by decide))⟩

/-- C2, counterexample: maximum 0 and `2^31` executions that take one after the other with
none releasing. The last take wraps the counter to `-2^31` and returns `nil`: one
execution is granted and unreleased, more than the maximum. -/
theorem granted_above_max_after_wrap :
    ((Sys.init 0).run ((List.range 2147483648).map Step.take)).map
      (fun s => s.granted.length) = some 1 := by
  rw [Sys.run_takes_zero_wrapped]
  rfl

/-! ### C4 -/

/-- C4 (as amended): for a limiter starting at counter 0 and every sequence of take and
release calls in which each release is matched to an earlier take of its own and fewer
than `2^31` takes are unreleased at any time, the counter equals the number of takes not
yet released, it is not negative, no release returned `limiterError`, and when every take
has been released the counter is 0. -/
theorem counter_eq_outstanding (m : Int) (tr : List Step) (s : Sys)
    (hr : (Sys.init m).run tr = some s)
    (hb : ∀ k s1, (Sys.init m).run (tr.take k) = some s1 → s1.outstanding < 2147483648) :
    s.l.counter = (s.outstanding : Int) ∧ 0 ≤ s.l.counter ∧ s.faults = 0 ∧
    (s.outstanding = 0 → s.l.counter = 0) := by
  obtain ⟨_, hc, hf, _⟩ := Sys.good_run m tr (Sys.init m) s (Sys.good_init m) hb hr
  refine ⟨hc, by omega, hf, fun h0 => by omega⟩

/-- C4, instance: maximum 1; executions 0 and 1 take (granted, refused), then both
release: the counter is back at 0 and no release reported a fault. -/
theorem counter_eq_outstanding_witness :
    (Sys.init 1).run [Step.take 0, Step.take 1, Step.release 1, Step.release 0] =
      some bothReleased ∧
    bothReleased.l.counter = (bothReleased.outstanding : Int) ∧ 0 ≤ bothReleased.l.counter ∧
    bothReleased.faults = 0 ∧ (bothReleased.outstanding = 0 → bothReleased.l.counter = 0) :=
  have hr : (Sys.init 1).run [Step.take 0, Step.take 1, Step.release 1, Step.release 0] =
      some bothReleased := by
    simp [Sys.run, Sys.step, Sys.init, newLimiter, limiter.take, limiter.release, wrapInt32,
      bothReleased]
  ⟨hr, counter_eq_outstanding 1 [Step.take 0, Step.take 1, Step.release 1, Step.release 0]
    bothReleased hr (Sys.outstanding_lt_of_short 1 _ (by decide))⟩

/-- C4, counterexample: `2^31` takes in a row, none released yet (each could still be
released by its own caller). The counter is `-2^31`: negative, and not the number of
unreleased takes, which is `2^31`. -/
theorem counter_negative_after_wrap :
    ((Sys.init 0).run ((List.range 2147483648).map Step.take)).map
      (fun s => (s.l.counter, s.outstanding)) = some (-2147483648, 2147483648) :=
  Sys.counter_outstanding_of_run 2147483647 2147483648 (-2147483648) _
    Sys.run_takes_zero_wrapped rfl

/-! ### C10 -/

/-- C10 (as amended): a release on a limiter whose counter is 0 returns `limiterError` and
leaves the counter at `-1`; for a maximum `0 ≤ m < 2^31 - 1` the limiter afterwards grants
`m + 1` takes made with no release in between and rejects the one after. -/
theorem release_unmatched (l : limiter) (hc : l.counter = 0) (h0 : 0 ≤ l.max)
    (h1 : l.max < 2147483647) :
    l.release.2 = some error.limiterError ∧ l.release.1.counter = -1 ∧
    (takes (l.max.toNat + 1) l.release.1).2 = List.replicate (l.max.toNat + 1) none ∧
    (takes (l.max.toNat + 1) l.release.1).1.take.2 = some (error.throttleError l.max) := by
  have hm : ((l.max.toNat : Nat) : Int) = l.max := Int.toNat_of_nonneg h0
  have hr : l.release = ({ l with counter := -1 }, some error.limiterError) := by
    simp [limiter.release, hc, wrapInt32]
  have ht := takes_within (l.max.toNat + 1) { l with counter := -1 } (by simp)
    (by simp [hm]) (by simp; omega)
  have hw : wrapInt32 (l.max + 1) = l.max + 1 := wrapInt32_of_range _ (by omega) (by omega)
  rw [hr]
  refine ⟨rfl, rfl, ?_, ?_⟩
  · rw [ht]
  · rw [ht]
    simp [limiter.take, hm, hw]

/-- C10, instance: a fresh limiter with maximum 5, the limiter of `TestLimiterRelease`. -/
theorem release_unmatched_witness :
    (newLimiter 5).counter = 0 ∧
    (newLimiter 5).release.2 = some error.limiterError ∧
    (newLimiter 5).release.1.counter = -1 ∧
    (takes ((newLimiter 5).max.toNat + 1) (newLimiter 5).release.1).2 =
      List.replicate ((newLimiter 5).max.toNat + 1) none ∧
    (takes ((newLimiter 5).max.toNat + 1) (newLimiter 5).release.1).1.take.2 =
      some (error.throttleError (newLimiter 5).max) :=
  ⟨rfl, release_unmatched (newLimiter 5) rfl (by decide) (by decide)⟩

/-- C10, counterexample: after a release on a fresh limiter with maximum 5 the counter is
`-1`, and the sixth take in a row is granted; only the seventh is rejected. -/
theorem release_unmatched_corrupts :
    (newLimiter 5).release.1.counter = -1 ∧
    (takes 6 (newLimiter 5).release.1).2 = List.replicate 6 none ∧
    (takes 6 (newLimiter 5).release.1).1.take.2 = some (error.throttleError 5) := by
  decide

/-! ## Properties of the HTTP client -/

theorem wrapInt64_add_left (a b : Int) : wrapInt64 (wrapInt64 a + b) = wrapInt64 (a + b) := by
  unfold wrapInt64; omega

/-- The loop of `readBodySize` on a body that ends with `io.EOF`: the wrapped total of all
byte counts, after one `Read` per chunk and one for the final result. -/
theorem readLoop_eof (last : Nat × error) (hl : last.2 = error.EOF) (chunks : List Nat)
    (length : Int) (reads : Nat) :
    readLoop last chunks length reads =
      ((wrapInt64 (length + (chunks.sum : Nat) + last.1), none), reads + chunks.length + 1) := by
  induction chunks generalizing length reads with
  | nil => simp [readLoop, hl]
  | cons n rest ih =>
    simp only [readLoop, ih, List.sum_cons, List.length_cons]
    rw [show wrapInt64 (length + (n : Int)) + ((rest.sum : Nat) : Int) + (last.1 : Int) =
        wrapInt64 (length + n) + (((rest.sum : Nat) : Int) + last.1) by ring,
      wrapInt64_add_left]
    congr 2
    · congr 1; push_cast; ring
    · omega

/-! ### C8 -/

/-- C8 (as amended): for every reader whose `Read` calls deliver chunks of `n_1, …, n_k` bytes
and then report `io.EOF` (together with or after the last chunk), with a total below `2^63`,
`readBodySize` returns `(n_1 + … + n_k, nil)` and closes the reader exactly once. -/
theorem readBodySize_eq_total (r : ReadCloser) (hl : r.last.2 = error.EOF)
    (hfit : r.chunks.sum + r.last.1 < 9223372036854775808) :
    (readBodySize r).1 = (((r.chunks.sum + r.last.1 : Nat) : Int), none) ∧
    (readBodySize r).2.closes = r.closes + 1 ∧
    (readBodySize r).2.reads = r.reads + r.chunks.length + 1 := by
  have hw : wrapInt64 (((r.chunks.sum : Nat) : Int) + (r.last.1 : Int)) =
      ((r.chunks.sum + r.last.1 : Nat) : Int) := by
    rw [wrapInt64_of_range _ (by omega) (by omega)]
    push_cast
    rfl
  simp only [readBodySize, readLoop_eof r.last hl, zero_add, hw, and_self]

/-- C8, instance: the body of `TestReadBodySize`, 200000 bytes read through the 4096-byte
buffer (48 full chunks, then 3392 bytes, then `io.EOF` alone). -/
theorem readBodySize_eq_total_witness :
    (readBodySize testBody).1 = (200000, none) ∧ (readBodySize testBody).2.closes = 1 :=
  ⟨(readBodySize_eq_total testBody rfl (by decide)).1,
   (readBodySize_eq_total testBody rfl (by decide)).2.1⟩

/-- C8, counterexample: a reader that fills the 4096-byte buffer `2^51` times and then
reports `io.EOF` has delivered `2^63` bytes; `length` has wrapped and `readBodySize`
returns `-2^63`. -/
theorem readBodySize_wraps :
    (readBodySize hugeBody).1 = (-9223372036854775808, none) := by
  simp only [readBodySize, hugeBody, readLoop_eof (0, error.EOF) rfl, List.sum_replicate,
    smul_eq_mul]
  simp [wrapInt64]

/-! ### C5 -/

/-- Against a server that answers every request with a status of 500 or more, a fetch that
has made `attempts ≤ maxRecoverAttempts` retries issues `maxRecoverAttempts - attempts + 1`
more requests, waits before each but the first, and returns `(0, nil)`. -/
theorem makeRecovarable_all_5xx (c : httpClient) (req : Request)
    (hsrv : ∀ n, ∃ resp, c.Do req n = Except.ok resp ∧ resp.StatusCode ≥ 500)
    (d : Nat) (attempts : Int) (hd : c.maxRecoverAttempts - attempts = d)
    (issued : List Request) (waits : Nat) :
    (makeRecovarableHttpRequest c req attempts issued waits).size = 0 ∧
    (makeRecovarableHttpRequest c req attempts issued waits).err = none ∧
    (makeRecovarableHttpRequest c req attempts issued waits).requests =
      issued ++ List.replicate (d + 1) req ∧
    (makeRecovarableHttpRequest c req attempts issued waits).waits = waits + d := by
  induction d generalizing attempts issued waits with
  | zero =>
    obtain ⟨resp, hdo, hst⟩ := hsrv issued.length
    have hge : attempts ≥ c.maxRecoverAttempts := by omega
    rw [makeRecovarableHttpRequest]
    simp [hdo, isRecoverableError, hst, hge]
  | succ k ih =>
    obtain ⟨resp, hdo, hst⟩ := hsrv issued.length
    have hlt : ¬ attempts ≥ c.maxRecoverAttempts := by omega
    have hrec := ih (attempts + 1) (by push_cast at hd; omega) (issued ++ [req]) (waits + 1)
    rw [makeRecovarableHttpRequest]
    simp only [hdo, isRecoverableError, hst, if_true, if_neg hlt]
    refine ⟨hrec.1, hrec.2.1, ?_, ?_⟩
    · rw [hrec.2.2.1, List.append_assoc, List.singleton_append, ← List.replicate_succ]
    · rw [hrec.2.2.2]; omega

/-- C5: for every `httpClient` with `maxRecoverAttempts = k ≥ 0` and every server that
answers each request with a status code of 500 or more, `makeHttpRequest` returns (the
function is total), issues exactly `k + 1` requests, all the same, and returns size 0 with
a `nil` error. -/
theorem makeHttpRequest_all_5xx (c : httpClient) (req : Request)
    (hk : 0 ≤ c.maxRecoverAttempts)
    (hsrv : ∀ n, ∃ resp, c.Do req n = Except.ok resp ∧ resp.StatusCode ≥ 500) :
    (c.makeHttpRequest req).size = 0 ∧ (c.makeHttpRequest req).err = none ∧
    (c.makeHttpRequest req).requests = List.replicate (c.maxRecoverAttempts.toNat + 1) req ∧
    (c.makeHttpRequest req).requests.length = c.maxRecoverAttempts.toNat + 1 := by
  have h := makeRecovarable_all_5xx c req hsrv c.maxRecoverAttempts.toNat 0
    (by rw [Int.toNat_of_nonneg hk]; ring) [] 0
  simp only [httpClient.makeHttpRequest]
  refine ⟨h.1, h.2.1, by simpa using h.2.2.1, ?_⟩
  rw [h.2.2.1]; simp

/-- C5, instance: two retries allowed, the server always answers 503: three requests. -/
theorem makeHttpRequest_all_5xx_witness :
    (0 : Int) ≤ 2 ∧
    (httpClient.makeHttpRequest { maxRecoverAttempts := 2, Do := always503 }
      { URL := "http://1", Method := "GET" }).size = 0 ∧
    (httpClient.makeHttpRequest { maxRecoverAttempts := 2, Do := always503 }
      { URL := "http://1", Method := "GET" }).err = none ∧
    (httpClient.makeHttpRequest { maxRecoverAttempts := 2, Do := always503 }
      { URL := "http://1", Method := "GET" }).requests.length = 3 :=
  have h := makeHttpRequest_all_5xx { maxRecoverAttempts := 2, Do := always503 }
    { URL := "http://1", Method := "GET" } (by decide)
    (fun _ => ⟨_, rfl, by decide⟩)
  ⟨by decide, h.1, h.2.1, h.2.2.2⟩

/-! ### C6 -/

/-- C6, the code at `newClient(3)` (the client of `Default`) against a server that always
answers 503: the retry bound of the client is 0, not 3; with 0 attempts so far (below 3) it
does not wait and does not issue the request again, it returns `(0, nil)` after the first
request. -/
theorem newClient_drops_maxAttempts :
    (newClient 3 always503).maxRecoverAttempts = 0 ∧
    ((newClient 3 always503).makeHttpRequest { URL := "http://1", Method := "GET" }).requests =
      [{ URL := "http://1", Method := "GET" }] ∧
    ((newClient 3 always503).makeHttpRequest { URL := "http://1", Method := "GET" }).waits = 0 ∧
    ((newClient 3 always503).makeHttpRequest { URL := "http://1", Method := "GET" }).size = 0 ∧
    ((newClient 3 always503).makeHttpRequest { URL := "http://1", Method := "GET" }).err =
      none := by
  have h := makeRecovarable_all_5xx (newClient 3 always503)
    { URL := "http://1", Method := "GET" } (fun _ => ⟨_, rfl, by decide⟩) 0 0 rfl [] 0
  exact ⟨rfl, by simpa [httpClient.makeHttpRequest] using h.2.2.1,
    by simpa [httpClient.makeHttpRequest] using h.2.2.2, h.1, h.2.1⟩

/-! ### C9 -/

/-- C9: a response is recoverable iff its status code is at least 500; and when the answer to
the request has a status code below 500, `makeRecovarableHttpRequest` issues no further
request and does not wait; it returns `(ContentLength, nil)` with the body untouched (no
`Read`) when `ContentLength` is not -1, and otherwise the result of `readBodySize` on the
body. -/
theorem terminal_response (c : httpClient) (req : Request) (attempts : Int)
    (issued : List Request) (waits : Nat) (resp : Response)
    (hdo : c.Do req issued.length = Except.ok resp) (hst : resp.StatusCode < 500) :
    (∀ r : Response, isRecoverableError r = true ↔ r.StatusCode ≥ 500) ∧
    (makeRecovarableHttpRequest c req attempts issued waits).requests = issued ++ [req] ∧
    (makeRecovarableHttpRequest c req attempts issued waits).waits = waits ∧
    (resp.ContentLength ≠ -1 →
      (makeRecovarableHttpRequest c req attempts issued waits).size = resp.ContentLength ∧
      (makeRecovarableHttpRequest c req attempts issued waits).err = none ∧
      (makeRecovarableHttpRequest c req attempts issued waits).body = some resp.Body) ∧
    (resp.ContentLength = -1 →
      ((makeRecovarableHttpRequest c req attempts issued waits).size,
        (makeRecovarableHttpRequest c req attempts issued waits).err) =
          (readBodySize resp.Body).1 ∧
      (makeRecovarableHttpRequest c req attempts issued waits).body =
        some (readBodySize resp.Body).2) := by
  have hnr : ¬ resp.StatusCode ≥ 500 := by omega
  refine ⟨fun r => by simp [isRecoverableError], ?_, ?_, ?_, ?_⟩
  · rw [makeRecovarableHttpRequest]
    by_cases hcl : resp.ContentLength = -1 <;> simp [hdo, isRecoverableError, hnr, hcl]
  · rw [makeRecovarableHttpRequest]
    by_cases hcl : resp.ContentLength = -1 <;> simp [hdo, isRecoverableError, hnr, hcl]
  · intro hcl
    rw [makeRecovarableHttpRequest]
    simp [hdo, isRecoverableError, hnr, hcl]
  · intro hcl
    rw [makeRecovarableHttpRequest]
    simp [hdo, isRecoverableError, hnr, hcl]

/-- C9, instance: a 404 answer with `Content-Length: 9`: one request, size 9, body not
read. -/
theorem terminal_response_witness :
    (makeRecovarableHttpRequest { maxRecoverAttempts := 3, Do := always404 }
      { URL := "http://1", Method := "GET" } 0 [] 0).requests =
        [{ URL := "http://1", Method := "GET" }] ∧
    (makeRecovarableHttpRequest { maxRecoverAttempts := 3, Do := always404 }
      { URL := "http://1", Method := "GET" } 0 [] 0).size = 9 ∧
    (makeRecovarableHttpRequest { maxRecoverAttempts := 3, Do := always404 }
      { URL := "http://1", Method := "GET" } 0 [] 0).body =
        some { chunks := [], last := (9, error.EOF), reads := 0, closes := 0 } :=
  have h := terminal_response { maxRecoverAttempts := 3, Do := always404 }
    { URL := "http://1", Method := "GET" } 0 [] 0
    { StatusCode := 404, ContentLength := 9,
      Body := { chunks := [], last := (9, error.EOF), reads := 0, closes := 0 } }
    rfl (by decide)
  ⟨h.2.1, (h.2.2.2.1 (by decide)).1, (h.2.2.2.1 (by decide)).2.2⟩

/-! ## Properties of the handler -/

theorem WriteString_of_status (w : ResponseWriter) (c : Int) (s : String)
    (h : w.status = some c) : w.WriteString s = { w with body := w.body ++ [s] } := by
  simp [ResponseWriter.WriteString, ResponseWriter.WriteHeader, h]

/-- Writing a list of lines after the header was written appends them to the body, in
order, and changes nothing else. -/
theorem foldl_WriteString {α : Type} (f : α → String) (results : List α) (w : ResponseWriter)
    (c : Int) (h : w.status = some c) :
    results.foldl (fun w r => w.WriteString (f r)) w =
      { w with body := w.body ++ results.map f } := by
  induction results generalizing w with
  | nil => simp
  | cons r rs ih =>
    simp only [List.foldl_cons, List.map_cons]
    rw [WriteString_of_status w c _ h, ih _ (by simpa using h)]
    simp

theorem perm_cons_eraseIdx {α : Type} (l : List α) (k : Nat) (hk : k < l.length) :
    (l[k] :: l.eraseIdx k).Perm l := by
  induction l generalizing k with
  | nil => simp at hk
  | cons a t ih =>
    cases k with
    | zero => simp
    | succ j =>
      simp only [List.getElem_cons_succ, List.eraseIdx_cons_succ]
      have hj : j < t.length := by simpa using hk
      exact (List.Perm.swap a t[j] (t.eraseIdx j)).trans ((ih j hj).cons a)

/-- Whatever the completion order, the values received on `results` are the values sent by
the goroutines, each once. -/
theorem drain_perm {α : Type} (pick : Nat → Nat) (n : Nat) (l : List α) (hl : l.length = n) :
    (drain pick n l).Perm l := by
  induction n generalizing l with
  | zero =>
    have : l = [] := List.length_eq_zero.mp hl
    simp [drain, this]
  | succ k ih =>
    have hpos : 0 < l.length := by omega
    have hlt : pick k % l.length < l.length := Nat.mod_lt _ hpos
    simp only [drain, List.getElem?_eq_getElem hlt]
    have hlen : (l.eraseIdx (pick k % l.length)).length = k := by
      rw [List.length_eraseIdx, if_pos hlt]; omega
    exact ((ih _ hlen).cons _).trans (perm_cons_eraseIdx l _ hlt)

theorem drain_congr {α : Type} (pick pick2 : Nat → Nat) (n : Nat) (l : List α)
    (h : ∀ j, j < n → pick j = pick2 j) : drain pick n l = drain pick2 n l := by
  induction n generalizing l with
  | zero => simp [drain]
  | succ k ih =>
    simp only [drain, h k (Nat.lt_succ_self k)]
    cases l[pick2 k % l.length]? with
    | none => rfl
    | some x =>
      simp only
      rw [ih _ (fun j hj => h j (Nat.lt_succ_of_lt hj))]

/-- Every order of the values sent is the arrival order of some completion order: the
choice function `pick` covers all schedules of the goroutines. -/
theorem drain_complete {α : Type} (l2 l : List α) (hp : l2.Perm l) :
    ∃ pick, drain pick l.length l = l2 := by
  induction l2 generalizing l with
  | nil =>
    have : l = [] := hp.symm.eq_nil
    exact ⟨fun _ => 0, by simp [this, drain]⟩
  | cons x t ih =>
    have hx : x ∈ l := hp.subset (List.mem_cons_self x t)
    obtain ⟨k, hk, hkx⟩ := List.getElem_of_mem hx
    have hperm : t.Perm (l.eraseIdx k) := by
      have h1 : (x :: t).Perm (l[k] :: l.eraseIdx k) := hp.trans (perm_cons_eraseIdx l k hk).symm
      rw [hkx] at h1
      exact h1.cons_inv
    obtain ⟨pick2, hpick2⟩ := ih (l.eraseIdx k) hperm
    have hlen : (l.eraseIdx k).length = l.length - 1 := by
      rw [List.length_eraseIdx, if_pos hk]
    obtain ⟨n, hn⟩ : ∃ n, l.length = n + 1 := ⟨l.length - 1, by omega⟩
    refine ⟨fun j => if j = n then k else pick2 j, ?_⟩
    have hmod : k % (n + 1) = k := Nat.mod_eq_of_lt (by omega)
    rw [hn]
    simp only [drain, if_true, hn, hmod, List.getElem?_eq_getElem (by omega : k < l.length), hkx]
    congr 1
    rw [drain_congr _ pick2 n _ (fun j hj => by simp [Nat.ne_of_lt hj])]
    rw [hlen, hn] at hpick2
    exact hpick2

theorem fetchOne_fst (h : handler) (i : Nat) (u : requestURL) :
    (fetchOne h i u).1 = outcome h i u := by
  unfold fetchOne outcome
  cases hu : u.err with
  | some e => simp
  | none =>
    cases hr : (h.client.makeHttpRequest i { URL := u.url, Method := "GET" }).2 with
    | some e => simp [hr]
    | none => simp [hr]

theorem fetchOne_snd_of_err (h : handler) (i : Nat) (u : requestURL) (hu : u.err ≠ none) :
    (fetchOne h i u).2 = false := by
  simp [fetchOne, hu]

theorem Set_status (w : ResponseWriter) (k v : String) : (w.Set k v).status = w.status := rfl

theorem Set_body (w : ResponseWriter) (k v : String) : (w.Set k v).body = w.body := rfl

theorem Set_sent (w : ResponseWriter) (k v : String) : (w.Set k v).sent = w.sent := rfl

theorem WriteHeader_of_none (w : ResponseWriter) (c : Int) (h : w.status = none) :
    w.WriteHeader c = { w with status := some c, sent := w.header } := by
  simp [ResponseWriter.WriteHeader, h]

/-- The admitted path of `processRequest`, written out: the limiter is taken and released,
the header is written with status 200, and one line per received value is appended. -/
theorem processRequest_of_granted (h : handler) (w : ResponseWriter)
    (targets : List requestURL) (pick : Nat → Nat)
    (hw : w.status = none) (ht : h.limiter.take.2 = none) :
    (processRequest h w targets pick).w.status = some 200 ∧
    (processRequest h w targets pick).w.body = w.body ++
      (drain pick (targets.enum.map (fun iu => (iu.1, fetchOne h iu.1 iu.2))).length
        (targets.enum.map (fun iu => (iu.1, fetchOne h iu.1 iu.2)))).map
          (fun r => FormatInt r.2.1 ++ "\n") ∧
    (processRequest h w targets pick).clientCalls =
      ((targets.enum.map (fun iu => (iu.1, fetchOne h iu.1 iu.2))).filter
        (fun r => r.2.2)).map (fun r => r.1) := by
  have h3 : ((((w.Set "Content-Type" "text/plain; charset=utf-8").Set
      "Transfer-Encoding" "chunked").Set "X-Content-Type-Options" "nosniff").WriteHeader
      200).status = some 200 := by
    rw [WriteHeader_of_none _ _ (by simp [Set_status, hw])]
  simp only [processRequest, ht]
  rw [foldl_WriteString _ _ _ 200 h3]
  refine ⟨h3, ?_, trivial⟩
  rw [WriteHeader_of_none _ _ (by simp [Set_status, hw])]
  simp [Set_body]

/-! ### C1 -/

/-- C1: for every admitted batch (`take` returned `nil`) of `N` targets and every completion
order `pick` of the goroutines, `processRequest` writes status 200 and a body of exactly `N`
lines, each the decimal form of a target's outcome followed by a newline; the multiset of
lines is the multiset of the targets' outcomes, where the outcome is 0 for a target that
failed to parse (the client is not called for it) or whose fetch returned an error, and
otherwise the size the client returned. -/
theorem processRequest_granted (h : handler) (w : ResponseWriter)
    (targets : List requestURL) (pick : Nat → Nat)
    (hw : w.status = none) (hb : w.body = []) (ht : h.limiter.take.2 = none) :
    (processRequest h w targets pick).w.status = some 200 ∧
    (processRequest h w targets pick).w.body.length = targets.length ∧
    (((processRequest h w targets pick).w.body : List String) : Multiset String) =
      ((targets.enum.map (fun iu => FormatInt (outcome h iu.1 iu.2) ++ "\n") : List String) :
        Multiset String) ∧
    (∀ i u, targets[i]? = some u → u.err ≠ none →
      outcome h i u = 0 ∧ i ∉ (processRequest h w targets pick).clientCalls) := by
  obtain ⟨hs, hbody, hcalls⟩ := processRequest_of_granted h w targets pick hw ht
  have hperm := drain_perm pick _ (targets.enum.map (fun iu => (iu.1, fetchOne h iu.1 iu.2))) rfl
  refine ⟨hs, ?_, ?_, ?_⟩
  · rw [hbody, hb, List.nil_append, List.length_map, hperm.length_eq, List.length_map,
      List.enum_length]
  · rw [hbody, hb, List.nil_append]
    apply Multiset.coe_eq_coe.mpr
    refine (hperm.map _).trans ?_
    rw [List.map_map]
    apply List.Perm.of_eq
    apply List.map_congr_left
    intro iu _
    simp [fetchOne_fst]
  · intro i u hiu hu
    refine ⟨by simp [outcome, Option.isSome_iff_ne_none.mpr hu], ?_⟩
    rw [hcalls]
    intro hmem
    simp only [List.mem_map, List.mem_filter] at hmem
    obtain ⟨r, ⟨⟨iu, hiu2, hr⟩, hcalled⟩, hri⟩ := hmem
    have hget := List.mem_enum_iff_getElem?.mp hiu2
    subst hr
    simp only at hri hcalled
    rw [hri, hiu] at hget
    have hu2 : iu.2 = u := (Option.some.inj hget).symm
    rw [hri, hu2, fetchOne_snd_of_err h i u hu] at hcalled
    exact Bool.false_ne_true hcalled

/-- C1, instance: three targets, the second one unparsable, the fetch of the second
goroutine failing; completion order 1, 2, 0. Status 200, three lines, and goroutine 1 did
not call the client. -/
theorem processRequest_granted_witness :
    sampleHandler.limiter.take.2 = none ∧
    (processRequest sampleHandler ResponseWriter.new mixedTargets (fun _ => 1)).w.status =
      some 200 ∧
    (processRequest sampleHandler ResponseWriter.new mixedTargets (fun _ => 1)).w.body.length =
      3 ∧
    (processRequest sampleHandler ResponseWriter.new mixedTargets (fun _ => 1)).w.body =
      ["0\n", "12\n", "7\n"] ∧
    1 ∉ (processRequest sampleHandler ResponseWriter.new mixedTargets (fun _ => 1)).clientCalls :=
  have h := processRequest_granted sampleHandler ResponseWriter.new mixedTargets (fun _ => 1)
    rfl rfl rfl
  ⟨rfl, h.1, h.2.1, rfl,
    (h.2.2.2 1 { url := "", err := some (error.other "invalid URI") } rfl (by decide)).2⟩

/-! ### C7 -/

/-- The rejected path of `processRequest` on a fresh writer: status 429, the headers sent
are those set before `WriteHeader`, the body is the text of the error, and no goroutine
is started. -/
theorem processRequest_of_refused (h : handler) (targets : List requestURL)
    (pick : Nat → Nat) (err : error) (ht : h.limiter.take.2 = some err) :
    (processRequest h ResponseWriter.new targets pick).w.status = some 429 ∧
    (processRequest h ResponseWriter.new targets pick).w.sent =
      [("Content-Type", "text/plain; charset=utf-8")] ∧
    (processRequest h ResponseWriter.new targets pick).w.body = [err.Error] ∧
    (processRequest h ResponseWriter.new targets pick).clientCalls = [] := by
  simp [processRequest, ht, ResponseWriter.new, ResponseWriter.Set, ResponseWriter.WriteHeader,
    ResponseWriter.WriteString]

/-- C7, the code at a handler with maximum 1 and deadline 5 s while one batch is admitted:
the response has status 429 and the throttle message as its body, and no outcome line; but
`Retry-After` (and `Content-Length`) are set in the header map after `WriteHeader(429)`,
so the response as sent carries only `Content-Type` and has no `Retry-After` header. -/
theorem throttled_response_without_retry_after :
    busyHandler.limiter.take.2 = some (error.throttleError 1) ∧
    (processRequest busyHandler ResponseWriter.new reqTargets (fun _ => 0)).w.status =
      some 429 ∧
    (processRequest busyHandler ResponseWriter.new reqTargets (fun _ => 0)).w.body =
      ["Simultaneous requests limited to 1"] ∧
    (processRequest busyHandler ResponseWriter.new reqTargets (fun _ => 0)).w.sentHeader
      "Retry-After" = none ∧
    (processRequest busyHandler ResponseWriter.new reqTargets (fun _ => 0)).w.sent =
      [("Content-Type", "text/plain; charset=utf-8")] ∧
    (processRequest busyHandler ResponseWriter.new reqTargets (fun _ => 0)).w.header =
      [("Content-Length", "34"), ("Retry-After", "5"),
       ("Content-Type", "text/plain; charset=utf-8")] :=
  ⟨rfl, rfl, rfl, rfl, rfl, rfl⟩

end urlshandler
